import Mathlib

/-!
Verification of the bounded paginated search aggregator of `src/app.py`
(function `search_youtube_api`, lines 30-83).

The Python function is shallowly embedded as a fueled loop over explicit
state.  The YouTube client (`youtube.search().list(...).execute()`) is
abstracted as a function from a page request to either a page response or
an HTTP error, mirroring the SearchClient collaborator.  The embedding
records, next to the outcome, a ghost trace of every issued page request
together with the number of records accumulated at the moment the request
was issued, so that invariants about page sizes and fetch counts can be
stated.  Machine behaviour kept faithfully:

* `results_per_page = min(50, max_results - len(video_data))` on `Int`
  (the Python ints), line 45;
* the `while len(video_data) < max_results` guard, line 43;
* item normalization (lines 60-66): `strptime(..., "%Y-%m-%dT%H:%M:%SZ").date()`,
  verbatim title/channelTitle, URL built from `item['id']['videoId']`;
  a missing field or unparsable timestamp raises an uncaught exception
  (only `HttpError` is caught), modelled by the `crash` outcome;
* `next_page_token` truthiness (`if not next_page_token`, line 71): `None`
  and the empty string both end the loop;
* `HttpError` is caught and the function returns `None` (lines 74-81),
  modelled by the `failure` outcome carrying the HTTP status;
* the final `return video_data[:max_results]` (line 83) as Python slicing.

The loop itself has no page budget; the `fuel` argument is a ghost bound on
the number of loop iterations, and running out of fuel is reported by the
distinguished outcome `outOfFuel`, so non-termination of the Python loop is
expressed as "for every fuel the run ends in `outOfFuel`".
-/

namespace YtSearch

/-- A calendar date, as produced by Python's `datetime.date`. -/
structure Date where
  year : Nat
  month : Nat
  day : Nat
deriving DecidableEq, Repr

/-- One page request, the argument record of `youtube.search().list(...)`
(lines 47-56).  `q`, `publishedAfter`, `publishedBefore` and `pageToken`
are the Python keyword arguments of the same names; `maxResults` is the
`results_per_page` value (a Python int, so `Int`). -/
structure PageRequest where
  q : String
  maxResults : Int
  publishedAfter : String
  publishedBefore : String
  pageToken : Option String
deriving DecidableEq, Repr

/-- One raw search item as read by the normalization code (lines 60-66).
Each field is the nested dictionary entry the code accesses; `none` models
the key being absent from the response (a `KeyError` when accessed). -/
structure RawItem where
  publishedAt : Option String
  title : Option String
  channelTitle : Option String
  videoId : Option String
deriving DecidableEq, Repr

/-- The parts of the API response the code reads: `response.get('items', [])`
and `response.get('nextPageToken')` (lines 60 and 68). -/
structure PageResponse where
  items : List RawItem
  nextPageToken : Option String
deriving DecidableEq, Repr

/-- Result of one `request.execute()` call: a page, or a raised `HttpError`
carrying `e.resp.status` (line 76). -/
inductive FetchResult where
  | ok (resp : PageResponse)
  | httpError (status : Nat)
deriving DecidableEq, Repr

/-- One normalized output record, the dictionary appended at lines 61-66
(published date, title, channel title as author, watch URL). -/
structure VideoRecord where
  publishedDate : Date
  title : String
  author : String
  url : String
deriving DecidableEq, Repr

/-- Outcome of a `search_youtube_api` call.  `success` is the normal return
of `video_data[:max_results]`; `failure s` is the `return None` after a
caught `HttpError` with status `s`; `crash` is an uncaught exception
(`KeyError`/`ValueError` during normalization, which the `except HttpError`
clause does not catch); `outOfFuel` means the ghost iteration budget was
exhausted while the Python loop would still be running. -/
inductive Outcome where
  | success (records : List VideoRecord)
  | failure (status : Nat)
  | crash
  | outOfFuel
deriving DecidableEq, Repr

/-- Numeric value of a decimal digit character. -/
def digitVal (c : Char) : Nat := c.toNat - 48

/-- Gregorian leap-year rule, as used by Python's `datetime` validation. -/
def isLeapYear (y : Nat) : Bool :=
  (y % 4 == 0 && y % 100 != 0) || y % 400 == 0

/-- Number of days in a month, for `strptime` date validation. -/
def daysInMonth (y m : Nat) : Nat :=
  if m = 2 then (if isLeapYear y then 29 else 28)
  else if m = 4 ∨ m = 6 ∨ m = 9 ∨ m = 11 then 30
  else 31

/-- `datetime.strptime(s, "%Y-%m-%dT%H:%M:%SZ").date()` (line 62): parse a
timestamp of the fixed shape `YYYY-MM-DDTHH:MM:SSZ` and keep the calendar
date; `none` models the `ValueError` raised on any other input. -/
def strptimeDate (s : String) : Option Date :=
  match s.data with
  | [y1, y2, y3, y4, a1, m1, m2, a2, d1, d2, a3, h1, h2, a4, n1, n2, a5, x1, x2, a6] =>
    if y1.isDigit ∧ y2.isDigit ∧ y3.isDigit ∧ y4.isDigit ∧
        m1.isDigit ∧ m2.isDigit ∧ d1.isDigit ∧ d2.isDigit ∧
        h1.isDigit ∧ h2.isDigit ∧ n1.isDigit ∧ n2.isDigit ∧
        x1.isDigit ∧ x2.isDigit ∧
        a1 = '-' ∧ a2 = '-' ∧ a3 = 'T' ∧ a4 = ':' ∧ a5 = ':' ∧ a6 = 'Z' then
      let y := ((digitVal y1 * 10 + digitVal y2) * 10 + digitVal y3) * 10 + digitVal y4
      let mo := digitVal m1 * 10 + digitVal m2
      let d := digitVal d1 * 10 + digitVal d2
      let h := digitVal h1 * 10 + digitVal h2
      let mi := digitVal n1 * 10 + digitVal n2
      let sec := digitVal x1 * 10 + digitVal x2
      if 1 ≤ mo ∧ mo ≤ 12 ∧ 1 ≤ d ∧ d ≤ daysInMonth y mo ∧
          h ≤ 23 ∧ mi ≤ 59 ∧ sec ≤ 61 then
        some { year := y, month := mo, day := d }
      else none
    else none
  | _ => none

/-- Zero-pad a number to two decimal digits, as in `isoformat()`. -/
def pad2 (n : Nat) : String := if n < 10 then "0" ++ toString n else toString n

/-- Zero-pad a year to four decimal digits, as in `isoformat()`. -/
def pad4 (n : Nat) : String :=
  if n < 10 then "000" ++ toString n
  else if n < 100 then "00" ++ toString n
  else if n < 1000 then "0" ++ toString n
  else toString n

/-- `date.isoformat()`: `YYYY-MM-DD`. -/
def isoDate (d : Date) : String :=
  pad4 d.year ++ "-" ++ pad2 d.month ++ "-" ++ pad2 d.day

/-- `datetime.combine(start_date, time.min).isoformat() + 'Z'` (line 38):
the start date at `00:00:00`, tagged as a UTC instant. -/
def startTimeStr (d : Date) : String := isoDate d ++ "T00:00:00" ++ "Z"

/-- `datetime.combine(end_date, time.max).isoformat() + 'Z'` (line 39):
the end date at `23:59:59.999999` (inclusive end of day), tagged as a UTC
instant. -/
def endTimeStr (d : Date) : String := isoDate d ++ "T23:59:59.999999" ++ "Z"

/-- The fixed watch-URL template of line 65. -/
def urlFromId (v : String) : String := "https://www.youtube.com/watch?v=" ++ v

/-- Normalization of one raw item (the dictionary built at lines 61-66):
parse the published timestamp to a calendar date, copy title and channel
title verbatim, build the URL from the video id.  `none` models the
uncaught `KeyError`/`ValueError` raised when a field is absent or the
timestamp does not parse. -/
def normalizeItem (it : RawItem) : Option VideoRecord :=
  match it.publishedAt with
  | none => none
  | some pa =>
    match strptimeDate pa with
    | none => none
    | some d =>
      match it.title, it.channelTitle, it.videoId with
      | some t, some c, some v =>
        some { publishedDate := d, title := t, author := c, url := urlFromId v }
      | _, _, _ => none

/-- Normalization of a whole page's items, in order (the `for` loop at
lines 60-66); `none` as soon as any single item fails to normalize. -/
def normalizeAll : List RawItem → Option (List VideoRecord)
  | [] => some []
  | it :: rest =>
    match normalizeItem it, normalizeAll rest with
    | some r, some rs => some (r :: rs)
    | _, _ => none

/-- Python truthiness test `not next_page_token` (line 71): `None` and the
empty string are falsy, every other string is truthy. -/
def pyFalsy : Option String → Bool
  | none => true
  | some s => s.data.isEmpty

/-- Python slice `l[:k]` for an `int` bound `k` (line 83): for `k ≥ 0` the
first `k` elements, for `k < 0` all but the last `-k` elements. -/
def pySlice (l : List VideoRecord) (k : Int) : List VideoRecord :=
  if k < 0 then l.take (l.length - (-k).toNat) else l.take k.toNat

/-- Build the page request record of lines 47-56 from the query text, the
page size, the window strings and the continuation token. -/
def mkReq (q : String) (per : Int) (sT eT : String) (tok : Option String) :
    PageRequest :=
  { q := q, maxResults := per, publishedAfter := sT, publishedBefore := eT,
    pageToken := tok }

/-- The pagination loop of `search_youtube_api` (lines 43-72) together with
the `except HttpError` handler (lines 74-81) and the final truncation
(line 83).  State: accumulated `video_data`, current `next_page_token`, and
the ghost trace of issued requests paired with the accumulated length at
issue time.  `fuel` bounds the number of loop iterations (the Python loop
has no such bound; exhaustion is reported as `outOfFuel`). -/
def searchLoop (client : PageRequest → FetchResult) (q sT eT : String) (M : Int) :
    Nat → List VideoRecord → Option String → List (PageRequest × Nat) →
      Outcome × List (PageRequest × Nat)
  | 0, acc, _tok, trace =>
    if (acc.length : Int) < M then (Outcome.outOfFuel, trace)
    else (Outcome.success (pySlice acc M), trace)
  | fuel + 1, acc, tok, trace =>
    if (acc.length : Int) < M then
      let per : Int := min 50 (M - (acc.length : Int))
      let req : PageRequest := mkReq q per sT eT tok
      let trace2 := trace ++ [(req, acc.length)]
      match client req with
      | FetchResult.httpError s => (Outcome.failure s, trace2)
      | FetchResult.ok resp =>
        match normalizeAll resp.items with
        | none => (Outcome.crash, trace2)
        | some recsPage =>
          let acc2 := acc ++ recsPage
          let tok2 := resp.nextPageToken
          if pyFalsy tok2 ∨ (acc2.length : Int) ≥ M then
            (Outcome.success (pySlice acc2 M), trace2)
          else
            searchLoop client q sT eT M fuel acc2 tok2 trace2
    else (Outcome.success (pySlice acc M), trace)

/-- `search_youtube_api(api_key, keyword, start_date, end_date, max_results)`
(lines 30-83), with the HTTP client abstracted and a ghost iteration budget.
The time-window strings are computed once, before the loop, exactly as at
lines 38-39. -/
def search_youtube_api (client : PageRequest → FetchResult) (keyword : String)
    (start_date end_date : Date) (max_results : Int) (fuel : Nat) :
    Outcome × List (PageRequest × Nat) :=
  searchLoop client keyword (startTimeStr start_date) (endTimeStr end_date)
    max_results fuel [] none []

/-- All raw items delivered by `client` along a trace of requests, page by
page in trace order (empty for a request that errors). -/
def fetchedItems (client : PageRequest → FetchResult)
    (tr : List (PageRequest × Nat)) : List RawItem :=
  (tr.map fun p =>
    match client p.1 with
    | FetchResult.ok resp => resp.items
    | FetchResult.httpError _ => []).flatten

/-- Continuation token encoding an absolute offset, used by the stub
sequential client: the token for offset `k` is the string of `k` copies
of `x`. -/
def offTok (k : Nat) : Option String := some (String.mk (List.replicate k 'x'))

/-- Offset encoded by a continuation token of the stub sequential client
(`none`, the first page, is offset `0`). -/
def tokOffset : Option String → Nat
  | none => 0
  | some s => s.data.length

/-- Stub well-behaved sequential client over a fixed corpus: serves
`pageSize` items starting at the offset encoded in the token, and returns a
continuation token exactly while items remain.  This is the deterministic
stub client of the spec's testable properties. -/
def goodClient (allItems : List RawItem) (req : PageRequest) : FetchResult :=
  let off := tokOffset req.pageToken
  let n := req.maxResults.toNat
  let chunk := (allItems.drop off).take n
  let off2 := off + chunk.length
  FetchResult.ok
    { items := chunk,
      nextPageToken := if off2 < allItems.length then offTok off2 else none }

/-- Misbehaving stub client: every page is zero items plus a continuation
token. -/
def spinClient : PageRequest → FetchResult :=
  fun _ => FetchResult.ok { items := [], nextPageToken := some "more" }

/-- A raw item whose `id.videoId` key is missing. -/
def malformedItem : RawItem :=
  { publishedAt := some "2024-01-02T03:04:05Z", title := some "a title",
    channelTitle := some "a channel", videoId := none }

/-- Stub client whose first page contains a malformed item. -/
def malformedClient : PageRequest → FetchResult :=
  fun _ => FetchResult.ok { items := [malformedItem], nextPageToken := none }

/-- Stub client returning an empty first page with no token. -/
def okEmptyClient : PageRequest → FetchResult :=
  fun _ => FetchResult.ok { items := [], nextPageToken := none }

/-- Stub client whose every fetch raises an `HttpError` with status 403. -/
def errClient : PageRequest → FetchResult :=
  fun _ => FetchResult.httpError 403

/-- A well-formed sample raw item. -/
def sampleItem1 : RawItem :=
  { publishedAt := some "2024-01-05T10:20:30Z", title := some "t1",
    channelTitle := some "c1", videoId := some "v1" }

/-- A second well-formed sample raw item. -/
def sampleItem2 : RawItem :=
  { publishedAt := some "2024-01-04T09:08:07Z", title := some "t2",
    channelTitle := some "c2", videoId := some "v2" }

/-- Normalization of `sampleItem1`. -/
def sampleRec1 : VideoRecord :=
  { publishedDate := { year := 2024, month := 1, day := 5 }, title := "t1",
    author := "c1", url := "https://www.youtube.com/watch?v=v1" }

/-- Normalization of `sampleItem2`. -/
def sampleRec2 : VideoRecord :=
  { publishedDate := { year := 2024, month := 1, day := 4 }, title := "t2",
    author := "c2", url := "https://www.youtube.com/watch?v=v2" }

theorem normalizeAll_length {l : List RawItem} {r : List VideoRecord}
    (h : normalizeAll l = some r) : r.length = l.length := by
  induction l generalizing r with
  | nil =>
    simp only [normalizeAll, Option.some.injEq] at h
    subst h; rfl
  | cons a tl ih =>
    simp only [normalizeAll] at h
    split at h
    · rename_i ra rt ha htl
      cases h
      simp [ih htl]
    · exact absurd h (by simp)

theorem normalizeAll_take {l : List RawItem} {r : List VideoRecord}
    (h : normalizeAll l = some r) :
    ∀ n, normalizeAll (l.take n) = some (r.take n) := by
  induction l generalizing r with
  | nil =>
    intro n
    simp only [normalizeAll, Option.some.injEq] at h
    subst h
    simp [normalizeAll]
  | cons a tl ih =>
    intro n
    simp only [normalizeAll] at h
    split at h
    · rename_i ra rt ha htl
      cases h
      cases n with
      | zero => simp [normalizeAll]
      | succ n =>
        simp only [List.take_succ_cons, normalizeAll, ha, ih htl n]
    · exact absurd h (by simp)

theorem normalizeAll_drop {l : List RawItem} {r : List VideoRecord}
    (h : normalizeAll l = some r) :
    ∀ n, normalizeAll (l.drop n) = some (r.drop n) := by
  induction l generalizing r with
  | nil =>
    intro n
    simp only [normalizeAll, Option.some.injEq] at h
    subst h
    simp [normalizeAll]
  | cons a tl ih =>
    intro n
    simp only [normalizeAll] at h
    split at h
    · rename_i ra rt ha htl
      cases h
      cases n with
      | zero => simp only [List.drop_zero, normalizeAll, ha, htl]
      | succ n => simpa using ih htl n
    · exact absurd h (by simp)

theorem normalizeAll_append_some {l1 l2 : List RawItem}
    {r1 r2 : List VideoRecord} (h1 : normalizeAll l1 = some r1)
    (h2 : normalizeAll l2 = some r2) :
    normalizeAll (l1 ++ l2) = some (r1 ++ r2) := by
  induction l1 generalizing r1 with
  | nil =>
    simp only [normalizeAll, Option.some.injEq] at h1
    subst h1
    simpa using h2
  | cons a tl ih =>
    simp only [normalizeAll] at h1
    split at h1
    · rename_i ra rt ha htl
      cases h1
      simp only [List.cons_append, normalizeAll, ha, List.append_eq, ih htl]
    · exact absurd h1 (by simp)

theorem pySlice_coe (l : List VideoRecord) (n : Nat) :
    pySlice l (n : Int) = l.take n := by
  simp [pySlice]

theorem pySlice_nil (M : Int) : pySlice [] M = [] := by
  simp [pySlice]

/-- Every request issued by the loop (beyond the pre-existing trace) carries
the query text, the two window strings, and the page size
`min 50 (cap − accumulated)`, issued while `accumulated < cap`. -/
theorem searchLoop_requests (client : PageRequest → FetchResult)
    (q sT eT : String) (M : Int) :
    ∀ fuel acc tok trace p,
      p ∈ (searchLoop client q sT eT M fuel acc tok trace).2 →
      p ∈ trace ∨
        (p.1.q = q ∧ p.1.publishedAfter = sT ∧ p.1.publishedBefore = eT ∧
         p.1.maxResults = min 50 (M - (p.2 : Int)) ∧ (p.2 : Int) < M) := by
  intro fuel
  induction fuel with
  | zero =>
    intro acc tok trace p hp
    simp only [searchLoop] at hp
    split at hp <;> exact Or.inl hp
  | succ fuel ih =>
    intro acc tok trace p hp
    simp only [searchLoop] at hp
    split at hp
    · rename_i hcond
      split at hp
      · rename_i s heq
        rcases List.mem_append.mp hp with h | h
        · exact Or.inl h
        · simp only [List.mem_singleton] at h
          subst h
          exact Or.inr ⟨rfl, rfl, rfl, rfl, hcond⟩
      · rename_i resp heq
        split at hp
        · rcases List.mem_append.mp hp with h | h
          · exact Or.inl h
          · simp only [List.mem_singleton] at h
            subst h
            exact Or.inr ⟨rfl, rfl, rfl, rfl, hcond⟩
        · rename_i recsPage hnorm
          split at hp
          · rcases List.mem_append.mp hp with h | h
            · exact Or.inl h
            · simp only [List.mem_singleton] at h
              subst h
              exact Or.inr ⟨rfl, rfl, rfl, rfl, hcond⟩
          · rcases ih _ _ _ _ hp with h | h
            · rcases List.mem_append.mp h with h | h
              · exact Or.inl h
              · simp only [List.mem_singleton] at h
                subst h
                exact Or.inr ⟨rfl, rfl, rfl, rfl, hcond⟩
            · exact Or.inr h
    · exact Or.inl hp

theorem pySlice_length_le (l : List VideoRecord) (M : Int) (hM : 0 ≤ M) :
    ((pySlice l M).length : Int) ≤ M := by
  simp only [pySlice]
  rw [if_neg (by omega)]
  have h := List.length_take M.toNat l
  omega

/-- Every success produced by the loop is a `pySlice _ M`, so its length is
bounded by the cap. -/
theorem searchLoop_success_length (client : PageRequest → FetchResult)
    (q sT eT : String) (M : Int) (hM : 0 ≤ M) :
    ∀ fuel acc tok trace out tr2,
      searchLoop client q sT eT M fuel acc tok trace = (Outcome.success out, tr2) →
      ((out.length : Int) ≤ M) := by
  intro fuel
  induction fuel with
  | zero =>
    intro acc tok trace out tr2 h
    simp only [searchLoop] at h
    split at h
    · exact absurd h (by simp [Prod.ext_iff])
    · injection h with h1 h2
      injection h1 with h1
      subst h1
      exact pySlice_length_le acc M hM
  | succ fuel ih =>
    intro acc tok trace out tr2 h
    simp only [searchLoop] at h
    split at h
    · split at h
      · exact absurd h (by simp [Prod.ext_iff])
      · rename_i resp heq
        split at h
        · exact absurd h (by simp [Prod.ext_iff])
        · rename_i recsPage hnorm
          split at h
          · injection h with h1 h2
            injection h1 with h1
            subst h1
            exact pySlice_length_le _ M hM
          · exact ih _ _ _ _ _ h
    · injection h with h1 h2
      injection h1 with h1
      subst h1
      exact pySlice_length_le acc M hM

/-- A failed aggregation: the trace ends at the failing request, every
earlier new request succeeded, and nothing is fetched afterwards. -/
theorem searchLoop_failure (client : PageRequest → FetchResult)
    (q sT eT : String) (M : Int) :
    ∀ fuel acc tok trace s tr2,
      searchLoop client q sT eT M fuel acc tok trace = (Outcome.failure s, tr2) →
      ∃ mid req a,
        tr2 = trace ++ mid ++ [(req, a)] ∧
        client req = FetchResult.httpError s ∧
        ∀ p ∈ mid, ∃ resp, client p.1 = FetchResult.ok resp := by
  intro fuel
  induction fuel with
  | zero =>
    intro acc tok trace s tr2 h
    simp only [searchLoop] at h
    split at h <;> exact absurd h (by simp [Prod.ext_iff])
  | succ fuel ih =>
    intro acc tok trace s tr2 h
    simp only [searchLoop] at h
    split at h
    · rename_i hcond
      split at h
      · rename_i s2 heq
        injection h with h1 h2
        injection h1 with h1
        subst h1
        subst h2
        exact ⟨[], _, acc.length, by simp, heq, by simp⟩
      · rename_i resp heq
        split at h
        · exact absurd h (by simp [Prod.ext_iff])
        · rename_i recsPage hnorm
          split at h
          · exact absurd h (by simp [Prod.ext_iff])
          · obtain ⟨mid, req, a, hm1, hm2, hm3⟩ := ih _ _ _ _ _ h
            refine ⟨(mkReq q (min 50 (M - (acc.length : Int))) sT eT tok,
              acc.length) :: mid, req, a, ?_, hm2, ?_⟩
            · simp only [hm1]
              simp
            · intro p hp
              rcases List.mem_cons.mp hp with h | h
              · subst h
                exact ⟨resp, heq⟩
              · exact hm3 p h
    · exact absurd h (by simp [Prod.ext_iff])

/-- A successful aggregation: the result is the concatenation of the fetched
pages (in trace order), each item mapped by `normalizeItem`, appended to the
initial accumulator and truncated by the Python slice. -/
theorem searchLoop_success (client : PageRequest → FetchResult)
    (q sT eT : String) (M : Int) :
    ∀ fuel acc tok trace out tr2,
      searchLoop client q sT eT M fuel acc tok trace = (Outcome.success out, tr2) →
      ∃ mid recsMid,
        tr2 = trace ++ mid ∧
        normalizeAll (fetchedItems client mid) = some recsMid ∧
        out = pySlice (acc ++ recsMid) M := by
  intro fuel
  induction fuel with
  | zero =>
    intro acc tok trace out tr2 h
    simp only [searchLoop] at h
    split at h
    · exact absurd h (by simp [Prod.ext_iff])
    · injection h with h1 h2
      injection h1 with h1
      subst h1
      subst h2
      exact ⟨[], [], by simp, by simp [fetchedItems, normalizeAll], by simp⟩
  | succ fuel ih =>
    intro acc tok trace out tr2 h
    simp only [searchLoop] at h
    split at h
    · split at h
      · exact absurd h (by simp [Prod.ext_iff])
      · rename_i resp heq
        split at h
        · exact absurd h (by simp [Prod.ext_iff])
        · rename_i recsPage hnorm
          split at h
          · injection h with h1 h2
            injection h1 with h1
            subst h1
            subst h2
            refine ⟨[(mkReq q (min 50 (M - (acc.length : Int))) sT eT tok,
              acc.length)], recsPage, by simp, ?_, rfl⟩
            simpa [fetchedItems, heq] using hnorm
          · obtain ⟨mid, recsMid, hm1, hm2, hm3⟩ := ih _ _ _ _ _ h
            refine ⟨(mkReq q (min 50 (M - (acc.length : Int))) sT eT tok,
              acc.length) :: mid, recsPage ++ recsMid, ?_, ?_, ?_⟩
            · simp only [hm1]
              simp
            · have hfi : fetchedItems client
                  ((mkReq q (min 50 (M - (acc.length : Int))) sT eT tok,
                    acc.length) :: mid) = resp.items ++ fetchedItems client mid := by
                simp [fetchedItems, heq]
              rw [hfi]
              exact normalizeAll_append_some hnorm hm2
            · simpa [List.append_assoc] using hm3
    · injection h with h1 h2
      injection h1 with h1
      subst h1
      subst h2
      exact ⟨[], [], by simp, by simp [fetchedItems, normalizeAll], by simp⟩

/-- On a client that always answers zero items plus a continuation token,
the loop never terminates: for every iteration budget it is still running. -/
theorem spin_out_of_fuel (q sT eT : String) (M : Int) (hM : 1 ≤ M) :
    ∀ fuel tok trace,
      (searchLoop spinClient q sT eT M fuel [] tok trace).1 = Outcome.outOfFuel := by
  intro fuel
  induction fuel with
  | zero =>
    intro tok trace
    simp only [searchLoop]
    rw [if_pos (by simpa using hM)]
  | succ fuel ih =>
    intro tok trace
    simp only [searchLoop, spinClient, normalizeAll]
    rw [if_pos (by simpa using hM)]
    rw [if_neg (by simp [pyFalsy]; omega)]
    exact ih _ _

theorem tokOffset_offTok (m : Nat) : tokOffset (offTok m) = m := by
  simp [tokOffset, offTok]

theorem pyFalsy_offTok (m : Nat) : pyFalsy (offTok m) = decide (m = 0) := by
  cases m <;> rfl

/-- Unfolded form of the stub sequential client. -/
theorem goodClient_eq (allItems : List RawItem) (req : PageRequest) :
    goodClient allItems req = FetchResult.ok
      { items := (allItems.drop (tokOffset req.pageToken)).take req.maxResults.toNat,
        nextPageToken :=
          if tokOffset req.pageToken +
              ((allItems.drop (tokOffset req.pageToken)).take req.maxResults.toNat).length <
              allItems.length
          then offTok (tokOffset req.pageToken +
            ((allItems.drop (tokOffset req.pageToken)).take req.maxResults.toNat).length)
          else none } := rfl

/-- Main run lemma for the stub sequential client over a corpus whose items
all normalize: started at offset `k` with enough fuel, the loop succeeds and
returns exactly the first `cap` records (saturated at the corpus size). -/
theorem loop_good (allItems : List RawItem) (recs : List VideoRecord)
    (hn : normalizeAll allItems = some recs)
    (q sT eT : String) (C : Nat) :
    ∀ fuel k tok trace, k ≤ allItems.length → tokOffset tok = k → C ≤ fuel + k →
      (searchLoop (goodClient allItems) q sT eT (C : Int) fuel
          (recs.take k) tok trace).1
        = Outcome.success (recs.take C) := by
  have hlen : recs.length = allItems.length := normalizeAll_length hn
  intro fuel
  induction fuel with
  | zero =>
    intro k tok trace hk htok hfc
    have hacc : (recs.take k).length = k := by
      rw [List.length_take]; omega
    simp only [searchLoop]
    rw [if_neg (by rw [hacc]; omega)]
    have hmin : min C k = C := by omega
    simp [pySlice_coe, List.take_take, hmin]
  | succ fuel ih =>
    intro k tok trace hk htok hfc
    have hacc : (recs.take k).length = k := by
      rw [List.length_take]; omega
    by_cases hkC : k < C
    · simp only [searchLoop]
      rw [if_pos (by rw [hacc]; omega)]
      rw [goodClient_eq]
      simp only [mkReq, htok, hacc]
      have hX : (min (50 : Int) ((C : Int) - (k : Int))).toNat = min 50 (C - k) := by
        omega
      rw [hX]
      rw [normalizeAll_take (normalizeAll_drop hn k)]
      simp only []
      rw [← List.take_add]
      have hchunklen : ((allItems.drop k).take (min 50 (C - k))).length
          = min (min 50 (C - k)) (allItems.length - k) := by
        rw [List.length_take, List.length_drop]
      have hacclen2 : (recs.take (k + min 50 (C - k))).length
          = min (k + min 50 (C - k)) recs.length := List.length_take _ _
      by_cases hT : k + ((allItems.drop k).take (min 50 (C - k))).length < allItems.length
      · simp only [if_pos hT]
        by_cases hC2 : ((recs.take (k + min 50 (C - k))).length : Int) ≥ (C : Int)
        · rw [if_pos (Or.inr hC2)]
          have hmin : min C (k + min 50 (C - k)) = C := by
            rw [hacclen2] at hC2
            omega
          simp [pySlice_coe, List.take_take, hmin]
        · have hbrk : ¬(pyFalsy (offTok
              (k + ((allItems.drop k).take (min 50 (C - k))).length)) = true
              ∨ ((recs.take (k + min 50 (C - k))).length : Int) ≥ (C : Int)) := by
            rw [pyFalsy_offTok]
            simp only [decide_eq_true_eq]
            push_neg
            constructor
            · rw [hchunklen]
              rw [hchunklen] at hT
              omega
            · omega
          rw [if_neg hbrk]
          have hksum : recs.take (k + min 50 (C - k))
              = recs.take (k + ((allItems.drop k).take (min 50 (C - k))).length) := by
            rw [List.take_eq_take]
            rw [hchunklen]
            omega
          rw [hksum]
          exact ih (k + ((allItems.drop k).take (min 50 (C - k))).length) _ _
            (by omega) (tokOffset_offTok _)
            (by rw [hchunklen] at hT ⊢; omega)
      · simp only [if_neg hT]
        rw [if_pos (Or.inl (show pyFalsy none = true from rfl))]
        have htk : recs.take (min C (k + min 50 (C - k))) = recs.take C := by
          rw [List.take_eq_take]
          rw [hchunklen] at hT
          omega
        simp only [pySlice_coe, List.take_take]
        rw [htk]
    · simp only [searchLoop]
      rw [if_neg (by rw [hacc]; omega)]
      have hmin : min C k = C := by omega
      simp [pySlice_coe, List.take_take, hmin]

/-- With the stub sequential client and a cap divisible by 50, every new
request issued by the loop asks for exactly 50 items. -/
theorem loop_good_50 (allItems : List RawItem) (recs : List VideoRecord)
    (hn : normalizeAll allItems = some recs)
    (q sT eT : String) (C : Nat) (h50 : 50 ∣ C) :
    ∀ fuel k tok trace, k ≤ allItems.length → tokOffset tok = k → 50 ∣ k →
      ∀ p ∈ (searchLoop (goodClient allItems) q sT eT (C : Int) fuel
          (recs.take k) tok trace).2,
        p ∈ trace ∨ p.1.maxResults = 50 := by
  have hlen : recs.length = allItems.length := normalizeAll_length hn
  intro fuel
  induction fuel with
  | zero =>
    intro k tok trace hk htok h50k p hp
    simp only [searchLoop] at hp
    split at hp <;> exact Or.inl hp
  | succ fuel ih =>
    intro k tok trace hk htok h50k p hp
    have hacc : (recs.take k).length = k := by
      rw [List.length_take]; omega
    by_cases hkC : k < C
    · simp only [searchLoop] at hp
      rw [if_pos (by rw [hacc]; omega)] at hp
      rw [goodClient_eq] at hp
      simp only [mkReq, htok, hacc] at hp
      have hX : (min (50 : Int) ((C : Int) - (k : Int))).toNat = min 50 (C - k) := by
        omega
      rw [hX] at hp
      rw [normalizeAll_take (normalizeAll_drop hn k)] at hp
      simp only [] at hp
      rw [← List.take_add] at hp
      have hsz : min 50 (C - k) = 50 := by omega
      have hreq : (mkReq q (min 50 ((C : Int) - (k : Int))) sT eT tok).maxResults
          = 50 := by
        simp only [mkReq]
        omega
      have hchunklen : ((allItems.drop k).take (min 50 (C - k))).length
          = min (min 50 (C - k)) (allItems.length - k) := by
        rw [List.length_take, List.length_drop]
      by_cases hT : k + ((allItems.drop k).take (min 50 (C - k))).length
          < allItems.length
      · simp only [if_pos hT] at hp
        by_cases hC2 : ((recs.take (k + min 50 (C - k))).length : Int) ≥ (C : Int)
        · rw [if_pos (Or.inr hC2)] at hp
          rcases List.mem_append.mp hp with h | h
          · exact Or.inl h
          · simp only [List.mem_singleton] at h
            subst h
            exact Or.inr hreq
        · have hbrk : ¬(pyFalsy (offTok
              (k + ((allItems.drop k).take (min 50 (C - k))).length)) = true
              ∨ ((recs.take (k + min 50 (C - k))).length : Int) ≥ (C : Int)) := by
            rw [pyFalsy_offTok]
            simp only [decide_eq_true_eq]
            push_neg
            constructor
            · rw [hchunklen]
              rw [hchunklen] at hT
              omega
            · omega
          rw [if_neg hbrk] at hp
          have hksum : recs.take (k + min 50 (C - k))
              = recs.take (k + ((allItems.drop k).take (min 50 (C - k))).length) := by
            rw [List.take_eq_take]
            rw [hchunklen]
            omega
          rw [hksum] at hp
          have h50next : 50 ∣ (k + ((allItems.drop k).take (min 50 (C - k))).length) := by
            rw [hchunklen]
            rw [hchunklen] at hT
            omega
          rcases ih (k + ((allItems.drop k).take (min 50 (C - k))).length)
              _ _ (by omega) (tokOffset_offTok _) h50next p hp with h | h
          · rcases List.mem_append.mp h with h | h
            · exact Or.inl h
            · simp only [List.mem_singleton] at h
              subst h
              exact Or.inr hreq
          · exact Or.inr h
      · simp only [if_neg hT] at hp
        rw [if_pos (Or.inl (show pyFalsy none = true from rfl))] at hp
        rcases List.mem_append.mp hp with h | h
        · exact Or.inl h
        · simp only [List.mem_singleton] at h
          subst h
          exact Or.inr hreq
    · simp only [searchLoop] at hp
      rw [if_neg (by rw [hacc]; omega)] at hp
      exact Or.inl hp

/-- With the stub sequential client and cap 1, the loop issues exactly one
request, of page size 1. -/
theorem good_cap_one (allItems : List RawItem) (recs : List VideoRecord)
    (hn : normalizeAll allItems = some recs) (q sT eT : String)
    (fuel : Nat) (hf : 1 ≤ fuel) :
    ∃ req, (searchLoop (goodClient allItems) q sT eT (1 : Int) fuel [] none []).2
      = [(req, 0)] ∧ req.maxResults = 1 := by
  obtain ⟨f, rfl⟩ : ∃ f, fuel = f + 1 := ⟨fuel - 1, by omega⟩
  refine ⟨mkReq q 1 sT eT none, ?_, rfl⟩
  cases allItems with
  | nil => rfl
  | cons a tl =>
    simp only [normalizeAll] at hn
    split at hn
    · rename_i ra rt ha htl
      simp only [searchLoop]
      rw [if_pos (by norm_num)]
      rw [goodClient_eq]
      simp only [mkReq, tokOffset, List.length_nil, Nat.cast_zero]
      have h1 : (min (50 : Int) ((1 : Int) - (0 : Int))).toNat = 1 := rfl
      rw [h1]
      have hchunk : ((a :: tl).drop 0).take 1 = [a] := rfl
      rw [hchunk]
      have hnorm1 : normalizeAll [a] = some [ra] := by
        simp only [normalizeAll, ha]
      rw [hnorm1]
      simp only [List.nil_append, List.length_singleton]
      rw [if_pos (Or.inr (by norm_num))]
      rfl
    · exact absurd hn (by simp)

/-- C1: for every valid query with result_cap = C, a successful aggregation
never exceeds C records (post-loop truncation, any client, even one whose
last page overshoots), and with the well-behaved sequential stub client the
returned sequence has length exactly `min C (total available items)`. -/
theorem C1_result_length :
    (∀ (client : PageRequest → FetchResult) (q : String) (sd ed : Date)
        (M : Int) (fuel : Nat) (out : List VideoRecord)
        (tr : List (PageRequest × Nat)),
        0 ≤ M →
        search_youtube_api client q sd ed M fuel = (Outcome.success out, tr) →
        (out.length : Int) ≤ M)
    ∧
    (∀ (q : String) (sd ed : Date) (C : Nat) (allItems : List RawItem)
        (recs : List VideoRecord) (fuel : Nat),
        normalizeAll allItems = some recs → C ≤ fuel →
        (search_youtube_api (goodClient allItems) q sd ed (C : Int) fuel).1
            = Outcome.success (recs.take C)
          ∧ (recs.take C).length = min C allItems.length) := by
  constructor
  · intro client q sd ed M fuel out tr hM h
    exact searchLoop_success_length client _ _ _ M hM fuel [] none [] out tr h
  · intro q sd ed C allItems recs fuel hn hfuel
    constructor
    · exact loop_good allItems recs hn q _ _ C fuel 0 none []
        (Nat.zero_le _) rfl (by omega)
    · rw [List.length_take, normalizeAll_length hn]

/-- Witness for C1: two-item corpus, cap 1. -/
theorem C1_result_length_witness :
    (search_youtube_api (goodClient [sampleItem1, sampleItem2]) "q"
        { year := 2024, month := 1, day := 1 } { year := 2024, month := 1, day := 31 }
        ((1 : Nat) : Int) 2).1
        = Outcome.success ([sampleRec1, sampleRec2].take 1)
      ∧ ([sampleRec1, sampleRec2].take 1).length
        = min 1 [sampleItem1, sampleItem2].length :=
  C1_result_length.2 "q" { year := 2024, month := 1, day := 1 }
    { year := 2024, month := 1, day := 31 } 1 [sampleItem1, sampleItem2]
    [sampleRec1, sampleRec2] 2 rfl (by norm_num)

/-- C2: every issued page request asks for `min 50 (cap − already fetched)`
items — never more than the platform maximum of 50, never more than the
remaining need, and at least 1; with the sequential stub client, a cap
divisible by 50 makes every page request exactly 50, and cap 1 issues a
single page request of size 1. -/
theorem C2_page_sizes :
    (∀ (client : PageRequest → FetchResult) (q : String) (sd ed : Date)
        (M : Int) (fuel : Nat) (p : PageRequest × Nat),
        p ∈ (search_youtube_api client q sd ed M fuel).2 →
        p.1.maxResults = min 50 (M - (p.2 : Int)) ∧
        1 ≤ p.1.maxResults ∧ p.1.maxResults ≤ 50 ∧
        p.1.maxResults ≤ M - (p.2 : Int))
    ∧
    (∀ (q : String) (sd ed : Date) (C : Nat) (allItems : List RawItem)
        (recs : List VideoRecord) (fuel : Nat) (p : PageRequest × Nat),
        normalizeAll allItems = some recs → 50 ∣ C →
        p ∈ (search_youtube_api (goodClient allItems) q sd ed (C : Int) fuel).2 →
        p.1.maxResults = 50)
    ∧
    (∀ (q : String) (sd ed : Date) (allItems : List RawItem)
        (recs : List VideoRecord) (fuel : Nat),
        normalizeAll allItems = some recs → 1 ≤ fuel →
        ∃ req, (search_youtube_api (goodClient allItems) q sd ed 1 fuel).2
            = [(req, 0)] ∧ req.maxResults = 1) := by
  refine ⟨?_, ?_, ?_⟩
  · intro client q sd ed M fuel p hp
    rcases searchLoop_requests client _ _ _ M fuel [] none [] p hp with h | h
    · exact absurd h (by simp)
    · obtain ⟨_, _, _, hmax, hlt⟩ := h
      refine ⟨hmax, ?_, ?_, ?_⟩ <;> rw [hmax] <;> omega
  · intro q sd ed C allItems recs fuel p hn h50 hp
    have h := loop_good_50 allItems recs hn q _ _ C h50 fuel 0 none []
      (Nat.zero_le _) rfl (dvd_zero 50) p hp
    exact h.resolve_left (by simp)
  · intro q sd ed allItems recs fuel hn hf
    exact good_cap_one allItems recs hn q _ _ fuel hf

/-- Witness for C2: one-item corpus, cap 1, a single request of size 1. -/
theorem C2_page_sizes_witness :
    ∃ req, (search_youtube_api (goodClient [sampleItem1]) "q"
        { year := 2024, month := 1, day := 1 } { year := 2024, month := 1, day := 2 }
        1 1).2 = [(req, 0)] ∧ req.maxResults = 1 :=
  C2_page_sizes.2.2 "q" { year := 2024, month := 1, day := 1 }
    { year := 2024, month := 1, day := 2 } [sampleItem1] [sampleRec1] 1 rfl
    (by norm_num)

/-- C3 (code behaviour at the claim's failing input): on a client that
answers every page with zero items plus a continuation token, the loop never
terminates — for every iteration budget the run is still in progress; the
code has no ProtocolAnomaly guard and no bounded-page failure. -/
theorem C3_loop_forever (q : String) (sd ed : Date) (M : Int) (hM : 1 ≤ M)
    (fuel : Nat) :
    (search_youtube_api spinClient q sd ed M fuel).1 = Outcome.outOfFuel :=
  spin_out_of_fuel q _ _ M hM fuel none []

/-- Witness for C3: still spinning after 100 pages at cap 1. -/
theorem C3_loop_forever_witness :
    (search_youtube_api spinClient "kw" { year := 2024, month := 1, day := 1 }
        { year := 2024, month := 1, day := 31 } 1 100).1 = Outcome.outOfFuel :=
  C3_loop_forever "kw" { year := 2024, month := 1, day := 1 }
    { year := 2024, month := 1, day := 31 } 1 (by norm_num) 100

/-- C4: if a page fetch fails with a client error, the aggregation aborts at
that very request: the outcome is the classified failure (carrying the HTTP
status and no records), the failing request is the last one in the trace,
and every earlier request had succeeded (so nothing is retried). -/
theorem C4_fail_fast (client : PageRequest → FetchResult) (q : String)
    (sd ed : Date) (M : Int) (fuel : Nat) (s : Nat)
    (tr : List (PageRequest × Nat))
    (h : search_youtube_api client q sd ed M fuel = (Outcome.failure s, tr)) :
    ∃ mid req a,
      tr = mid ++ [(req, a)] ∧
      client req = FetchResult.httpError s ∧
      ∀ p ∈ mid, ∃ resp, client p.1 = FetchResult.ok resp := by
  obtain ⟨mid, req, a, h1, h2, h3⟩ :=
    searchLoop_failure client _ _ _ M fuel [] none [] s tr h
  exact ⟨mid, req, a, by simpa using h1, h2, h3⟩

/-- Witness for C4: a client failing with status 403 on the first fetch. -/
theorem C4_fail_fast_witness :
    ∃ mid req a,
      ([(mkReq "q" 3 (startTimeStr { year := 2024, month := 1, day := 1 })
          (endTimeStr { year := 2024, month := 1, day := 2 }) none, 0)] :
        List (PageRequest × Nat)) = mid ++ [(req, a)] ∧
      errClient req = FetchResult.httpError 403 ∧
      ∀ p ∈ mid, ∃ resp, errClient p.1 = FetchResult.ok resp :=
  C4_fail_fast errClient "q" { year := 2024, month := 1, day := 1 }
    { year := 2024, month := 1, day := 2 } 3 1 403 _ rfl

/-- C5 (code behaviour at the claim's failing input): a page containing an
item with a missing required field (`id.videoId` absent) makes the
aggregation end in an uncaught exception (`crash`), not in a classified
MalformedResponse failure — only `HttpError` is caught by the code. -/
theorem C5_uncaught_crash :
    normalizeItem malformedItem = none ∧
    search_youtube_api malformedClient "kw" { year := 2024, month := 1, day := 1 }
        { year := 2024, month := 1, day := 31 } 10 5
      = (Outcome.crash,
         [(mkReq "kw" 10 (startTimeStr { year := 2024, month := 1, day := 1 })
            (endTimeStr { year := 2024, month := 1, day := 31 }) none, 0)]) :=
  ⟨rfl, rfl⟩

/-- C6: every page request of an aggregation carries the same window: the
start date at 00:00:00 and the end date at 23:59:59.999999 (inclusive end
of day), both tagged as UTC instants, exactly as computed once before the
loop. -/
theorem C6_time_window (client : PageRequest → FetchResult) (q : String)
    (sd ed : Date) (M : Int) (fuel : Nat) (p : PageRequest × Nat)
    (hp : p ∈ (search_youtube_api client q sd ed M fuel).2) :
    p.1.publishedAfter = startTimeStr sd ∧
    p.1.publishedBefore = endTimeStr ed ∧
    startTimeStr sd = isoDate sd ++ "T00:00:00" ++ "Z" ∧
    endTimeStr ed = isoDate ed ++ "T23:59:59.999999" ++ "Z" := by
  rcases searchLoop_requests client _ _ _ M fuel [] none [] p hp with h | h
  · exact absurd h (by simp)
  · exact ⟨h.2.1, h.2.2.1, rfl, rfl⟩

/-- Witness for C6 at a concrete one-request run. -/
theorem C6_time_window_witness :
    ((mkReq "q6" 5 (startTimeStr { year := 2024, month := 3, day := 1 })
        (endTimeStr { year := 2024, month := 3, day := 2 }) none, 0) :
      PageRequest × Nat).1.publishedAfter
        = startTimeStr { year := 2024, month := 3, day := 1 } ∧
    ((mkReq "q6" 5 (startTimeStr { year := 2024, month := 3, day := 1 })
        (endTimeStr { year := 2024, month := 3, day := 2 }) none, 0) :
      PageRequest × Nat).1.publishedBefore
        = endTimeStr { year := 2024, month := 3, day := 2 } ∧
    startTimeStr { year := 2024, month := 3, day := 1 }
        = isoDate { year := 2024, month := 3, day := 1 } ++ "T00:00:00" ++ "Z" ∧
    endTimeStr { year := 2024, month := 3, day := 2 }
        = isoDate { year := 2024, month := 3, day := 2 } ++ "T23:59:59.999999" ++ "Z" :=
  C6_time_window okEmptyClient "q6" { year := 2024, month := 3, day := 1 }
    { year := 2024, month := 3, day := 2 } 5 1 _ (List.Mem.head _)

/-- C7: a successful aggregation returns exactly the concatenation of the
fetched pages in the order received, each item mapped by the pure
normalization (timestamp parsed to a date, title and author copied
verbatim, URL built from the item id via the fixed template), truncated by
the Python slice to the cap; no re-sorting happens. -/
theorem C7_order_preserved (client : PageRequest → FetchResult) (q : String)
    (sd ed : Date) (M : Int) (fuel : Nat) (out : List VideoRecord)
    (tr : List (PageRequest × Nat))
    (h : search_youtube_api client q sd ed M fuel = (Outcome.success out, tr)) :
    (∃ recsAll, normalizeAll (fetchedItems client tr) = some recsAll ∧
      out = pySlice recsAll M) ∧
    ∀ (pa t c v : String),
      normalizeItem { publishedAt := some pa, title := some t,
                      channelTitle := some c, videoId := some v }
        = (strptimeDate pa).map
            (fun d => { publishedDate := d, title := t, author := c,
                        url := urlFromId v }) := by
  constructor
  · obtain ⟨mid, recsMid, h1, h2, h3⟩ :=
      searchLoop_success client _ _ _ M fuel [] none [] out tr h
    rw [List.nil_append] at h1
    subst h1
    exact ⟨recsMid, h2, by simpa using h3⟩
  · intro pa t c v
    cases hd : strptimeDate pa with
    | none => simp [normalizeItem, hd]
    | some d => simp [normalizeItem, hd]

/-- Witness for C7 at a concrete one-page run. -/
theorem C7_order_preserved_witness :
    ∃ recsAll,
      normalizeAll (fetchedItems okEmptyClient
        [(mkReq "q7" 5 (startTimeStr { year := 2024, month := 4, day := 1 })
            (endTimeStr { year := 2024, month := 4, day := 2 }) none, 0)])
        = some recsAll ∧
      ([] : List VideoRecord) = pySlice recsAll 5 :=
  (C7_order_preserved okEmptyClient "q7" { year := 2024, month := 4, day := 1 }
    { year := 2024, month := 4, day := 2 } 5 1 [] _ rfl).1

/-- C8: a first page with zero items and no continuation token ends the
aggregation after exactly one fetch, with an empty success result. -/
theorem C8_empty_first_page (client : PageRequest → FetchResult) (q : String)
    (sd ed : Date) (M : Int) (fuel : Nat) (hM : 1 ≤ M) (hf : 1 ≤ fuel)
    (hresp : client (mkReq q (min 50 M) (startTimeStr sd) (endTimeStr ed) none)
      = FetchResult.ok { items := [], nextPageToken := none }) :
    search_youtube_api client q sd ed M fuel
      = (Outcome.success [],
         [(mkReq q (min 50 M) (startTimeStr sd) (endTimeStr ed) none, 0)]) := by
  obtain ⟨f, rfl⟩ : ∃ f, fuel = f + 1 := ⟨fuel - 1, by omega⟩
  simp only [search_youtube_api, searchLoop]
  rw [if_pos (by simp; omega)]
  simp only [List.length_nil, Nat.cast_zero, sub_zero]
  rw [hresp]
  simp only [normalizeAll]
  rw [if_pos (Or.inl (show pyFalsy none = true from rfl))]
  simp [pySlice_nil]

/-- Witness for C8: a client answering an empty first page. -/
theorem C8_empty_first_page_witness :
    search_youtube_api okEmptyClient "q8" { year := 2024, month := 5, day := 1 }
        { year := 2024, month := 5, day := 2 } 7 2
      = (Outcome.success [],
         [(mkReq "q8" (min 50 7) (startTimeStr { year := 2024, month := 5, day := 1 })
            (endTimeStr { year := 2024, month := 5, day := 2 }) none, 0)]) :=
  C8_empty_first_page okEmptyClient "q8" { year := 2024, month := 5, day := 1 }
    { year := 2024, month := 5, day := 2 } 7 2 (by norm_num) (by norm_num) rfl

/-- C9 counterexample: at cap 0 (with matching items available) the code
returns an empty success and issues no fetch — it does not reject the query
with any failure, so no ValidationError-classified failure exists. -/
theorem C9_counterexample :
    search_youtube_api (goodClient [sampleItem1]) "kw"
        { year := 2024, month := 1, day := 1 } { year := 2024, month := 1, day := 2 }
        0 5
      = (Outcome.success [], []) := rfl

/-- C9 (amended): for every non-positive cap the aggregation issues no page
fetch and returns an empty success result (not a failure of any kind). -/
theorem C9_nonpositive_cap (client : PageRequest → FetchResult) (q : String)
    (sd ed : Date) (M : Int) (fuel : Nat) (hM : M ≤ 0) :
    search_youtube_api client q sd ed M fuel = (Outcome.success [], []) := by
  cases fuel with
  | zero =>
    simp only [search_youtube_api, searchLoop]
    rw [if_neg (by simp; omega)]
    rw [pySlice_nil]
  | succ f =>
    simp only [search_youtube_api, searchLoop]
    rw [if_neg (by simp; omega)]
    rw [pySlice_nil]

/-- Witness for the amended C9 at cap 0. -/
theorem C9_nonpositive_cap_witness :
    search_youtube_api errClient "x" { year := 2024, month := 2, day := 2 }
        { year := 2024, month := 2, day := 3 } 0 3
      = (Outcome.success [], []) :=
  C9_nonpositive_cap errClient "x" { year := 2024, month := 2, day := 2 }
    { year := 2024, month := 2, day := 3 } 0 3 (by norm_num)

/-- C10: with `max_results ≤ 0` the loop body is never entered — the trace
of issued page requests is empty and the function returns the empty
sequence as a success. -/
theorem C10_no_fetch (client : PageRequest → FetchResult) (q : String)
    (sd ed : Date) (M : Int) (fuel : Nat) (hM : M ≤ 0) :
    (search_youtube_api client q sd ed M fuel).2 = [] ∧
    (search_youtube_api client q sd ed M fuel).1 = Outcome.success [] := by
  cases fuel with
  | zero =>
    simp only [search_youtube_api, searchLoop]
    rw [if_neg (by simp; omega)]
    rw [pySlice_nil]
    exact ⟨rfl, rfl⟩
  | succ f =>
    simp only [search_youtube_api, searchLoop]
    rw [if_neg (by simp; omega)]
    rw [pySlice_nil]
    exact ⟨rfl, rfl⟩

/-- Witness for C10 at a negative cap. -/
theorem C10_no_fetch_witness :
    (search_youtube_api spinClient "y" { year := 2024, month := 6, day := 1 }
        { year := 2024, month := 6, day := 2 } (-2) 4).2 = [] ∧
    (search_youtube_api spinClient "y" { year := 2024, month := 6, day := 1 }
        { year := 2024, month := 6, day := 2 } (-2) 4).1 = Outcome.success [] :=
  C10_no_fetch spinClient "y" { year := 2024, month := 6, day := 1 }
    { year := 2024, month := 6, day := 2 } (-2) 4 (by norm_num)

end YtSearch
